import Mathlib

/-!
Verification of the VoceChat chatbot webhook (`src/pages/api/bot.ts`)
against its natural-language specification.

The file shallowly embeds the source:
* string helpers (`processMessageContent`, the substring / lower-case
  operations the handler uses),
* the inbound message shape consumed by the handler,
* `isImageMessage`, the request-body construction and `processMessage`
  (network calls are passed in as oracle outcomes, mirroring awaited
  promises),
* `fetchWithRetry` as a fuel-indexed loop recording the backoff delays and
  the number of attempts made,
* `sendMessageToBot` and the per-message task of `processQueueParallel`,
* the queue / drain-loop scheduler as a small-step transition system whose
  atomic steps are the run-to-completion segments between `await` points
  of the JavaScript event loop.
-/

namespace Bot

/-- JavaScript `String.prototype.toLowerCase`, restricted to the
character-wise lowering the handler needs for the alias check. -/
def jsToLower (s : String) : String := String.mk (s.data.map Char.toLower)

/-- Drop whitespace from both ends of a character list (JavaScript
`String.prototype.trim`). -/
def trimChars (l : List Char) : List Char :=
  (((l.dropWhile Char.isWhitespace).reverse.dropWhile Char.isWhitespace)).reverse

/-- Helper for `strIncludes`: does `sub` occur as a contiguous sublist? -/
def strIncludesAux (sub : List Char) : List Char → Bool
  | [] => sub.isEmpty
  | c :: t => sub.isPrefixOf (c :: t) || strIncludesAux sub t

/-- JavaScript `s.includes(sub)`. -/
def strIncludes (s sub : String) : Bool := strIncludesAux sub.data s.data

/-- JavaScript `s.startsWith(pre)`. -/
def jsStartsWith (s pre : String) : Bool := pre.data.isPrefixOf s.data

/-- One left-to-right pass implementing the global replacement of the
regular expression `@[0-9]+` by the empty string (bot.ts line 67).  The
flag records that we are inside a digit run that followed an `@`. -/
def stripMentionsGo : Bool → List Char → List Char
  | _, [] => []
  | inRun, c :: rest =>
    if inRun && c.isDigit then stripMentionsGo true rest
    else if c = '@' && (match rest with | d :: _ => d.isDigit | [] => false) then
      stripMentionsGo true rest
    else c :: stripMentionsGo false rest

/-- bot.ts lines 66-68: `content.replace(/@[0-9]+/g, "").trim()`. -/
def processMessageContent (content : String) : String :=
  String.mk (trimChars (stripMentionsGo false content.data))

/-- A JSON property value as the handler distinguishes them: a string, or
anything that is not a string (`typeof ... === 'string'` fails). -/
inductive PropVal
  | str (s : String)
  | other
deriving DecidableEq

/-- `message.detail.properties`: both fields may be absent. -/
structure MsgProperties where
  content_type : Option PropVal := none
  mentions : Option (List Nat) := none
deriving DecidableEq

/-- `message.target`: either a group (`'gid' in target`) or a direct user. -/
inductive MsgTarget
  | gid (g : Nat)
  | uid (u : Nat)
deriving DecidableEq

/-- `message.detail`; `properties` is `none` when null/absent. -/
structure MsgDetail where
  content_type : String
  content : String
  properties : Option MsgProperties := none
deriving DecidableEq

/-- The inbound webhook payload fields the handler consumes. -/
structure Message where
  from_uid : Nat
  target : MsgTarget
  mid : Nat
  detail : MsgDetail
deriving DecidableEq

/-- bot.ts lines 78-84. -/
def isImageMessage (m : Message) : Bool :=
  m.detail.content_type == "vocechat/file" &&
  (match m.detail.properties with
   | some p =>
     match p.content_type with
     | some (PropVal.str s) => jsStartsWith s "image/"
     | _ => false
   | none => false)

/-- Configuration read inside `processMessage`; `defaultModel` is `none`
when `process.env.DEFAULT_MODEL` is unset or empty (JS falsy). -/
structure Config where
  defaultModel : Option String := none
deriving DecidableEq

/-- bot.ts line 88: `process.env.DEFAULT_MODEL || "gpt-3.5-turbo"`. -/
def Config.textModel (c : Config) : String := c.defaultModel.getD "gpt-3.5-turbo"

/-- bot.ts line 89: `process.env.DEFAULT_MODEL || "claude-3-5-sonnet-20240620"`. -/
def Config.imageModel (c : Config) : String :=
  c.defaultModel.getD "claude-3-5-sonnet-20240620"

/-- The two request-body shapes built in bot.ts lines 103-152, keeping the
fields the claims are about: the model and the user content. -/
inductive RequestBody
  | image (model : String) (imageBase64 : String)
  | text (model : String) (prompt : String)
deriving DecidableEq

/-- Apology returned when fetching or converting the image fails
(bot.ts line 131) and for an image message whose API call fails (line 176). -/
def MEDIA_APOLOGY : String := "抱歉，我在处理图片时遇到了问题。请稍后再试或联系支持人员。"

/-- Apology for a text message whose API call fails (bot.ts line 178). -/
def TEXT_APOLOGY : String := "抱歉，我现在无法处理您的请求。请稍后再试。"

/-- bot.ts lines 94-153: build the request body.  `imageFetch` is the
awaited outcome of `getImageBase64` (line 101); an `error` result is the
caught exception of lines 129-132, making `processMessage` return the media
apology early. -/
def buildRequestBody (cfg : Config) (m : Message) (imageFetch : Except Unit String) :
    Except String RequestBody :=
  if isImageMessage m then
    match imageFetch with
    | Except.error _ => Except.error MEDIA_APOLOGY
    | Except.ok imageBase64 => Except.ok (RequestBody.image cfg.imageModel imageBase64)
  else
    Except.ok (RequestBody.text cfg.textModel (processMessageContent m.detail.content))

/-- `aiData.choices[0].message.content`; every layer may be absent. -/
structure AiMessage where
  content : Option String
deriving DecidableEq

/-- One element of `aiData.choices`. -/
structure AiChoice where
  message : Option AiMessage
deriving DecidableEq

/-- The parsed generation-backend response body. -/
structure AiData where
  choices : Option (List AiChoice)
deriving DecidableEq

/-- bot.ts lines 168-171: the well-formedness checks and the final
`content.trim()`.  `none` is every path that throws inside the `try`
(missing `choices`, empty `choices`, missing `message`, non-string
`content`). -/
def extractReply (d : AiData) : Option String :=
  match d.choices with
  | none => none
  | some [] => none
  | some (c :: _) =>
    match c.message with
    | none => none
    | some msg =>
      match msg.content with
      | none => none
      | some content => some (String.mk (trimChars content.data))

/-- bot.ts lines 155-180: the `try` around the API call together with its
`catch`, which picks the apology by re-testing `isImageMessage`. -/
def finishAi (isImg : Bool) (res : Except Unit AiData) : String :=
  match res with
  | Except.error _ => if isImg then MEDIA_APOLOGY else TEXT_APOLOGY
  | Except.ok d =>
    match extractReply d with
    | none => if isImg then MEDIA_APOLOGY else TEXT_APOLOGY
    | some reply => reply

/-- bot.ts lines 87-182.  `imageFetch` is the awaited `getImageBase64`
outcome; `aiCall` is the awaited outcome of `fetchWithRetry` on the
chat-completions endpoint followed by `aiResp.json()`, as a function of the
request body that was posted. -/
def processMessage (cfg : Config) (m : Message) (imageFetch : Except Unit String)
    (aiCall : RequestBody → Except Unit AiData) : String :=
  match buildRequestBody cfg m imageFetch with
  | Except.error apology => apology
  | Except.ok body => finishAi (isImageMessage m) (aiCall body)

/-- The observable outcome of one `fetchWithRetry` call: its result (the
error is `none` for the unreachable final `throw new Error("Max retries
reached")`, `some e` for a rethrown attempt error), the backoff delays
slept between attempts (in milliseconds, in order), and how many attempts
were made. -/
structure RetryOutcome (ε ρ : Type) where
  result : Except (Option ε) ρ
  delays : List Nat
  attempts : Nat

/-- bot.ts lines 36-46, the body of the `for` loop.  `attempt i` is the
awaited outcome of `fetchWithTimeout` on iteration `i`; `fuel` is
`maxRetries - i`, so the base case is the loop exiting and reaching the
final `throw`. -/
def fetchWithRetryAux (attempt : Nat → Except ε ρ) (maxRetries : Nat) :
    Nat → Nat → RetryOutcome ε ρ
  | _, 0 => ⟨Except.error none, [], 0⟩
  | i, fuel + 1 =>
    match attempt i with
    | Except.ok r => ⟨Except.ok r, [], 1⟩
    | Except.error e =>
      if i = maxRetries - 1 then ⟨Except.error (some e), [], 1⟩
      else
        let rest := fetchWithRetryAux attempt maxRetries (i + 1) fuel
        ⟨rest.result, 1000 * 2 ^ i :: rest.delays, rest.attempts + 1⟩

/-- bot.ts lines 36-46: `fetchWithRetry(url, options, maxRetries = 3)`,
with the network behaviour for the fixed `url`/`options` given by
`attempt`. -/
def fetchWithRetry (attempt : Nat → Except ε ρ) (maxRetries : Nat := 3) :
    RetryOutcome ε ρ :=
  fetchWithRetryAux attempt maxRetries 0 maxRetries

/-- A resolved `fetch` response: its HTTP status and the outcome of
`resp.json()`. -/
structure JsResponse (γ : Type) where
  status : Nat
  json : Except Unit γ

/-- How `sendMessageToBot` can fail: the rethrown transport error of
`fetchWithRetry`, or `resp.json()` throwing on a non-JSON body. -/
inductive SendError (ε : Type)
  | transport (e : Option ε)
  | badJson

/-- bot.ts lines 48-64: POST the reply through `fetchWithRetry` (default
`maxRetries = 3`), then `await resp.json()`; the `catch` logs and
rethrows, so every failure propagates. -/
def sendMessageToBot (attempt : Nat → Except ε (JsResponse γ)) :
    Except (SendError ε) Unit :=
  match (fetchWithRetry attempt 3).result with
  | Except.error e => Except.error (SendError.transport e)
  | Except.ok resp =>
    match resp.json with
    | Except.error _ => Except.error SendError.badJson
    | Except.ok _ => Except.ok ()

/-- The fixed generic failure message of bot.ts line 198. -/
def PER_MESSAGE_ERROR : String := "抱歉，处理您的消息时出现了问题。请稍后再试。"

/-- The reply endpoint used for both the primary and the fallback
delivery of a message (bot.ts lines 193 and 199). -/
def replyUrl (origin : String) (mid : Nat) : String :=
  origin ++ "/api/bot/reply/" ++ toString mid

/-- One dispatch attempt handed to `sendMessageToBot`: its url and body. -/
structure Dispatch where
  url : String
  payload : String
deriving DecidableEq

/-- bot.ts lines 190-205: the per-message task of a drain batch.
`primaryOk` and `fallbackOk` abstract the outcomes of the two possible
`sendMessageToBot` calls.  The result is the list of dispatch attempts
made, inside `Except` so that `Except.error` would model an exception
escaping the task; the outer `catch` sends the fallback and the inner
`catch` only logs, so both failure branches still return `Except.ok`. -/
def perMessageTask (cfg : Config) (origin : String) (m : Message)
    (imageFetch : Except Unit String) (aiCall : RequestBody → Except Unit AiData)
    (primaryOk fallbackOk : Bool) : Except Unit (List Dispatch) :=
  let response := processMessage cfg m imageFetch aiCall
  let url := replyUrl origin m.mid
  if primaryOk then Except.ok [⟨url, response⟩]
  else
    match (if fallbackOk then Except.ok () else Except.error () : Except Unit Unit) with
    | Except.ok _ => Except.ok [⟨url, response⟩, ⟨url, PER_MESSAGE_ERROR⟩]
    | Except.error _ => Except.ok [⟨url, response⟩, ⟨url, PER_MESSAGE_ERROR⟩]

/-!
The queue and drain loop (bot.ts lines 184-209 and 233-237).

JavaScript is single threaded: code between two `await` points runs to
completion.  The shared state (`messageQueue`, `processingPromise`) is
therefore mutated by two kinds of atomic steps:

* a handler invocation after its `await req.json()` resumes — it pushes
  the message, and when `processingPromise` is null it calls
  `processQueueParallel()`, whose body runs synchronously up to its first
  `await Promise.all(...)`: the `while` check and the first
  `splice(0, maxConcurrent)` happen inside the same atomic step;
* a resumption of an active loop when its batch's `Promise.all` settles —
  it re-checks the queue and either splices the next batch (up to the next
  `await`) or, seeing the queue empty, exits and clears
  `processingPromise`, all in one atomic step.

Messages are identified by `Nat` labels; loops are kept as a *list* of
active drain-loop instances (each holding its in-flight batch) so that
mutual exclusion is a proved invariant rather than baked into the state
shape. -/

/-- The shared mutable state of bot.ts lines 184-185 plus the history of
spliced batches (`batchHist`), which the code consumes via `Promise.all`. -/
structure SchedState where
  messageQueue : List Nat
  processing : Bool
  loops : List (List Nat)
  batchHist : List (List Nat)
deriving DecidableEq

/-- `messageQueue = []`, `processingPromise = null`, no active loop. -/
def initSched : SchedState := ⟨[], false, [], []⟩

/-- The schedulable atomic events: a handler resumption enqueueing message
`m`, or the `Promise.all` of the `i`-th active loop settling. -/
inductive Ev
  | enqueue (m : Nat)
  | batchDone (i : Nat)
deriving DecidableEq

/-- One atomic step, as described above.  In the `enqueue` case with
`processingPromise` null the new loop's first `splice` is part of the same
step; in the `batchDone` case an empty queue makes the loop exit and clear
the flag, a non-empty queue makes it splice the next batch. -/
def schedStep (maxConcurrent : Nat) (s : SchedState) : Ev → SchedState
  | Ev.enqueue m =>
    let q := s.messageQueue ++ [m]
    if s.processing then { s with messageQueue := q }
    else
      { messageQueue := q.drop maxConcurrent
        processing := true
        loops := s.loops ++ [q.take maxConcurrent]
        batchHist := s.batchHist ++ [q.take maxConcurrent] }
  | Ev.batchDone i =>
    if i < s.loops.length then
      if s.messageQueue.isEmpty then
        { s with processing := false, loops := s.loops.eraseIdx i }
      else
        { messageQueue := s.messageQueue.drop maxConcurrent
          processing := s.processing
          loops := s.loops.set i (s.messageQueue.take maxConcurrent)
          batchHist := s.batchHist ++ [s.messageQueue.take maxConcurrent] }
    else s

/-- Run a sequence of events from the initial state. -/
def schedRun (maxConcurrent : Nat) (es : List Ev) : SchedState :=
  es.foldl (schedStep maxConcurrent) initSched

/-- The messages enqueued by a trace, in order. -/
def enqueuedOf (es : List Ev) : List Nat :=
  es.filterMap (fun e => match e with | Ev.enqueue m => some m | Ev.batchDone _ => none)

/-- The inductive invariant: `processingPromise` is non-null exactly while
one drain loop is active, and when it is null the queue is empty. -/
def SchedInv (s : SchedState) : Prop :=
  s.loops.length = (if s.processing then 1 else 0) ∧
  (s.processing = false → s.messageQueue = [] ∧ s.loops = [])

/-- bot.ts lines 224-227: the group-mention test — the bot id in the
`mentions` property, the inline text `@<bot id>`, or the case-insensitive
alias `@chatgpt`. -/
def mentionedAtGroup (botId : Nat) (m : Message) : Bool :=
  (match m.detail.properties with
   | some p => p.mentions.getD []
   | none => []).any (fun x => x == botId)
  || strIncludes m.detail.content ("@" ++ toString botId)
  || strIncludes (jsToLower m.detail.content) "@chatgpt"

/-- What the POST branch of the handler decides for a parsed payload. -/
structure HandlerOutcome where
  status : Nat
  enqueued : Bool
deriving DecidableEq

/-- bot.ts lines 219-239: the admission decisions of the POST branch after
`req.json()` succeeds — self-messages are ignored, group messages without
a mention are ignored, everything else is pushed onto the queue (all with
status 200). -/
def handlerPost (botId : Nat) (m : Message) : HandlerOutcome :=
  if m.from_uid == botId then ⟨200, false⟩
  else
    match m.target with
    | MsgTarget.gid _ =>
      if mentionedAtGroup botId m then ⟨200, true⟩ else ⟨200, false⟩
    | MsgTarget.uid _ => ⟨200, true⟩

/-- Five webhook deliveries arriving one after another (each handler
resumption is one atomic enqueue step). -/
def fiveEnqueues : List Ev :=
  [Ev.enqueue 1, Ev.enqueue 2, Ev.enqueue 3, Ev.enqueue 4, Ev.enqueue 5]

/-- The same five deliveries followed by the drain loop running to
completion (each `batchDone 0` is one settling of the active batch). -/
def fiveTrace : List Ev := fiveEnqueues ++ [Ev.batchDone 0, Ev.batchDone 0, Ev.batchDone 0]

/-- A group message from user 3 (not the bot) mentioning the alias. -/
def groupMentionMsg : Message :=
  { from_uid := 3
    target := MsgTarget.gid 1
    mid := 11
    detail := { content_type := "text/plain", content := "hi @ChatGPT", properties := none } }

/-- A group message sent by the bot itself (uid 7) that contains the
alias mention. -/
def selfGroupMsg : Message :=
  { from_uid := 7
    target := MsgTarget.gid 1
    mid := 10
    detail := { content_type := "text/plain", content := "@chatgpt hello", properties := none } }

/-- A concrete attempt oracle whose first fetch resolves with HTTP status
500 and a JSON body. -/
def status500Attempt : Nat → Except Unit (JsResponse Nat) :=
  fun _ => Except.ok ⟨500, Except.ok 0⟩

/-- A concrete attempt oracle that always rejects. -/
def alwaysFailAttempt : Nat → Except Nat Nat := fun _ => Except.error 9

/-- A concrete text message (direct chat). -/
def plainTextMsg : Message :=
  { from_uid := 3
    target := MsgTarget.uid 7
    mid := 42
    detail := { content_type := "text/plain", content := "hi @123 there", properties := none } }

/-- A `vocechat/file` message whose attachment is a PDF, not an image. -/
def pdfFileMsg : Message :=
  { from_uid := 3
    target := MsgTarget.uid 7
    mid := 43
    detail := { content_type := "vocechat/file", content := "path/to/file.pdf"
                properties := some { content_type := some (PropVal.str "application/pdf") } } }

/-- An AI oracle that always rejects. -/
def failingAiCall : RequestBody → Except Unit AiData := fun _ => Except.error ()

theorem schedStep_inv (maxConcurrent : Nat) (s : SchedState) (e : Ev)
    (h : SchedInv s) : SchedInv (schedStep maxConcurrent s e) := by
  obtain ⟨hlen, hidle⟩ := h
  cases e with
  | enqueue m =>
    simp only [schedStep]
    by_cases hp : s.processing
    · simp [hp, SchedInv, hlen]
    · have hq := hidle (by simpa using hp)
      simp [hp, SchedInv, hq.2]
  | batchDone i =>
    simp only [schedStep]
    by_cases hi : i < s.loops.length
    · have hp : s.processing = true := by
        by_contra hp
        have := (hidle (by simpa using hp)).2
        rw [this] at hi
        simp at hi
      have h1 : s.loops.length = 1 := by simpa [hp] using hlen
      obtain ⟨a, ha⟩ := List.length_eq_one.mp h1
      have hi0 : i = 0 := by omega
      subst hi0
      by_cases hqe : s.messageQueue.isEmpty
      · have hq0 : s.messageQueue = [] := List.isEmpty_iff.mp hqe
        simp [hi, hqe, SchedInv, ha, hq0, List.eraseIdx]
      · constructor
        · simp [hi, hqe, hp, ha]
        · intro hfalse
          simp [hi, hqe, hp] at hfalse
    · simpa [hi] using ⟨hlen, hidle⟩

theorem schedRun_inv_general (maxConcurrent : Nat) (es : List Ev) :
    ∀ s : SchedState, SchedInv s → SchedInv (es.foldl (schedStep maxConcurrent) s) := by
  induction es with
  | nil => intro s h; simpa using h
  | cons e es ih =>
    intro s h
    exact ih (schedStep maxConcurrent s e) (schedStep_inv maxConcurrent s e h)

theorem schedRun_inv (maxConcurrent : Nat) (es : List Ev) :
    SchedInv (schedRun maxConcurrent es) :=
  schedRun_inv_general maxConcurrent es initSched (by constructor <;> simp [initSched])

/-- One step preserves the conservation relation: everything ever spliced
into a batch, followed by what is still queued, is exactly the enqueue
history. -/
theorem schedStep_conservation (maxConcurrent : Nat) (s : SchedState) (e : Ev) :
    (schedStep maxConcurrent s e).batchHist.flatten ++ (schedStep maxConcurrent s e).messageQueue
      = s.batchHist.flatten ++ s.messageQueue ++ enqueuedOf [e] := by
  cases e with
  | enqueue m =>
    simp only [schedStep, enqueuedOf]
    by_cases hp : s.processing
    · simp [hp]
    · simp [hp, List.flatten_append, List.append_assoc, List.take_append_drop]
  | batchDone i =>
    simp only [schedStep, enqueuedOf]
    by_cases hi : i < s.loops.length
    · by_cases hqe : s.messageQueue.isEmpty
      · simp [hi, hqe]
      · simp [hi, hqe, List.flatten_append, List.append_assoc, List.take_append_drop]
    · simp [hi]

theorem schedRun_conservation_general (maxConcurrent : Nat) (es : List Ev) :
    ∀ s : SchedState,
      (es.foldl (schedStep maxConcurrent) s).batchHist.flatten
          ++ (es.foldl (schedStep maxConcurrent) s).messageQueue
        = s.batchHist.flatten ++ s.messageQueue ++ enqueuedOf es := by
  induction es with
  | nil => intro s; simp [enqueuedOf]
  | cons e es ih =>
    intro s
    have h1 := ih (schedStep maxConcurrent s e)
    have h2 := schedStep_conservation maxConcurrent s e
    have hsplit : enqueuedOf (e :: es) = enqueuedOf [e] ++ enqueuedOf es := by
      cases e <;> simp [enqueuedOf]
    rw [List.foldl_cons, h1, h2, hsplit, List.append_assoc]

theorem schedRun_conservation (maxConcurrent : Nat) (es : List Ev) :
    (schedRun maxConcurrent es).batchHist.flatten ++ (schedRun maxConcurrent es).messageQueue
      = enqueuedOf es := by
  have := schedRun_conservation_general maxConcurrent es initSched
  simpa [schedRun, initSched] using this

/-- Claim C1: over every trace of enqueue steps and drain-loop resumptions,
the spliced batches followed by the pending queue are exactly the enqueue
history in order (so each enqueued message is removed at most once, removed
messages are never revisited, and with distinct message ids nothing is
double-processed), and whenever the drain loop is not active — in
particular right after it exits, having observed an empty queue — the
queue is empty, so no message is stuck. -/
theorem queue_no_stuck_no_double (maxConcurrent : Nat) (es : List Ev) :
    (schedRun maxConcurrent es).batchHist.flatten ++ (schedRun maxConcurrent es).messageQueue
        = enqueuedOf es
    ∧ ((schedRun maxConcurrent es).processing = false →
        (schedRun maxConcurrent es).messageQueue = [])
    ∧ (∀ m : Nat, ((schedRun maxConcurrent es).batchHist.flatten).count m
        ≤ (enqueuedOf es).count m)
    ∧ ((enqueuedOf es).Nodup → ((schedRun maxConcurrent es).batchHist.flatten).Nodup) := by
  have hc := schedRun_conservation maxConcurrent es
  have hinv := schedRun_inv maxConcurrent es
  refine ⟨hc, fun hp => (hinv.2 hp).1, ?_, ?_⟩
  · intro m
    rw [← hc, List.count_append]
    exact Nat.le_add_right _ _
  · intro hnd
    rw [← hc] at hnd
    exact (List.sublist_append_left _ _).nodup hnd

/-- Claim C1, witness: on the concrete five-message trace the conservation
equation holds and, the enqueued ids being distinct, no id is ever batched
twice. -/
theorem queue_no_stuck_no_double_witness :
    (schedRun 3 fiveTrace).batchHist.flatten ++ (schedRun 3 fiveTrace).messageQueue
        = enqueuedOf fiveTrace
    ∧ (schedRun 3 fiveTrace).batchHist.flatten.Nodup :=
  ⟨(queue_no_stuck_no_double 3 fiveTrace).1,
   (queue_no_stuck_no_double 3 fiveTrace).2.2.2 (by decide)⟩

/-- Claim C2: for every interleaving of enqueues and loop resumptions, at
most one drain loop is active; `processingPromise` is null only when no
loop is active (so it stays non-null for an active loop's entire
lifetime, being cleared only in the same atomic step in which the loop
observes the queue empty and exits); and an enqueue arriving while
`processingPromise` is non-null spawns no new loop. -/
theorem single_drain_loop (maxConcurrent : Nat) (es : List Ev) :
    (schedRun maxConcurrent es).loops.length ≤ 1
    ∧ ((schedRun maxConcurrent es).processing = false →
        (schedRun maxConcurrent es).loops = [])
    ∧ ((schedRun maxConcurrent es).processing = true →
        (schedRun maxConcurrent es).loops.length = 1)
    ∧ (∀ s : SchedState, ∀ m : Nat, s.processing = true →
        (schedStep maxConcurrent s (Ev.enqueue m)).loops = s.loops) := by
  have hinv := schedRun_inv maxConcurrent es
  refine ⟨?_, fun hp => (hinv.2 hp).2, fun hp => ?_, ?_⟩
  · rw [hinv.1]
    split <;> simp
  · rw [hinv.1, hp]
    simp
  · intro s m hp
    simp [schedStep, hp]

/-- Claim C2, witness: after the five concrete enqueues a single drain
loop is active. -/
theorem single_drain_loop_witness :
    (schedRun 3 fiveEnqueues).loops.length = 1 :=
  (single_drain_loop 3 fiveEnqueues).2.2.1 (by decide)

/-- Claim C7, counterexample: five messages enqueued one after another
with `maxConcurrent = 3` give a FIRST batch of exactly one message (the
drain loop is spawned synchronously by the first enqueue, which splices
immediately), not three as claimed. -/
theorem first_batch_size_cex :
    ((schedRun 3 fiveEnqueues).batchHist.head?.getD []).length = 1
    ∧ ¬(((schedRun 3 fiveEnqueues).batchHist.head?.getD []).length = 3) := by
  decide

/-- Claim C7, amended: the drain loop always splices up to `maxConcurrent`
messages from the front of the queue in enqueue order, fully processes a
batch before pulling the next, and exits only on observing an empty queue;
but since the loop is spawned synchronously by the first enqueue into an
idle system, five sequentially enqueued messages drain in batches of
sizes 1, 3 and 1, each message batched exactly once, with one invocation
of the generator and one primary reply-delivery attempt per message. -/
theorem drain_batches_five :
    (schedRun 3 fiveTrace).batchHist = [[1], [2, 3, 4], [5]]
    ∧ (schedRun 3 fiveTrace).messageQueue = []
    ∧ (schedRun 3 fiveTrace).processing = false
    ∧ (schedRun 3 fiveTrace).batchHist.flatten = [1, 2, 3, 4, 5]
    ∧ (schedRun 3 fiveTrace).batchHist.all (fun b => decide (b.length ≤ 3)) = true
    ∧ (∀ (cfg : Config) (origin : String) (m : Message) (imageFetch : Except Unit String)
        (aiCall : RequestBody → Except Unit AiData) (primaryOk fallbackOk : Bool),
        ∃ l, perMessageTask cfg origin m imageFetch aiCall primaryOk fallbackOk = Except.ok l
          ∧ l.head? = some ⟨replyUrl origin m.mid, processMessage cfg m imageFetch aiCall⟩) := by
  refine ⟨by decide, by decide, by decide, by decide, by decide, ?_⟩
  intro cfg origin m imageFetch aiCall primaryOk fallbackOk
  cases primaryOk <;> cases fallbackOk <;>
    exact ⟨_, rfl, rfl⟩

theorem fetchWithRetryAux_delays {ε ρ : Type} (attempt : Nat → Except ε ρ)
    (maxRetries : Nat) :
    ∀ fuel i j, j < (fetchWithRetryAux attempt maxRetries i fuel).delays.length →
      (fetchWithRetryAux attempt maxRetries i fuel).delays.getD j 0 = 1000 * 2 ^ (i + j) := by
  intro fuel
  induction fuel with
  | zero =>
    intro i j h
    simp [fetchWithRetryAux] at h
  | succ n ih =>
    intro i j h
    simp only [fetchWithRetryAux] at h ⊢
    cases hA : attempt i with
    | ok r =>
      rw [hA] at h
      simp at h
    | error e =>
      rw [hA] at h
      by_cases hlast : i = maxRetries - 1
      · simp [hlast] at h
      · simp only [hlast, if_false] at h ⊢
        cases j with
        | zero => simp
        | succ j =>
          simp only [List.getD_cons_succ]
          have hj : j < (fetchWithRetryAux attempt maxRetries (i + 1) n).delays.length := by
            simpa using h
          rw [ih (i + 1) j hj]
          have harith : i + 1 + j = i + (j + 1) := by omega
          rw [harith]

/-- Claim C3, counterexample: with the default `maxRetries = 3` and every
attempt failing, the delay before retry 1 (the second attempt) is 1000 ms,
not the claimed `1000 * 2 ^ 1 = 2000` ms. -/
theorem retry_backoff_formula_cex :
    (fetchWithRetry (fun _ => (Except.error () : Except Unit Nat)) 3).delays.head? = some 1000
    ∧ ¬((fetchWithRetry (fun _ => (Except.error () : Except Unit Nat)) 3).delays.head?
        = some (1000 * 2 ^ 1)) := by
  decide

/-- Claim C3, amended: no delay precedes the first attempt, and the delay
before retry `i` (0-indexed attempts, `i ≥ 1`) is `1000 * 2 ^ (i - 1)`
milliseconds — the `j`-th recorded inter-attempt delay is `1000 * 2 ^ j`;
in particular a call whose attempts 1 and 2 fail and whose attempt 3
succeeds returns the success result after exactly two inter-attempt delays
of 1000 ms and 2000 ms. -/
theorem retry_backoff_delays {ε ρ : Type} (attempt : Nat → Except ε ρ) (maxRetries : Nat) :
    (∀ j, j < (fetchWithRetry attempt maxRetries).delays.length →
      (fetchWithRetry attempt maxRetries).delays.getD j 0 = 1000 * 2 ^ j)
    ∧ fetchWithRetry (fun i => if i < 2 then Except.error () else Except.ok 42) 3
        = ⟨Except.ok 42, [1000, 2000], 3⟩ := by
  constructor
  · intro j hj
    have := fetchWithRetryAux_delays attempt maxRetries maxRetries 0 j hj
    simpa [fetchWithRetry] using this
  · rfl

/-- Claim C3, witness: the amended delay law evaluated on the all-failing
oracle at the first recorded delay. -/
theorem retry_backoff_delays_witness :
    (fetchWithRetry (fun _ => (Except.error () : Except Unit Nat)) 3).delays.getD 0 0
      = 1000 * 2 ^ 0 :=
  (retry_backoff_delays (fun _ => (Except.error () : Except Unit Nat)) 3).1 0 (by decide)

theorem fetchWithRetryAux_allFail {ε ρ : Type} (attempt : Nat → Except ε ρ) (e : Nat → ε)
    (maxRetries : Nat) (hf : ∀ i, i < maxRetries → attempt i = Except.error (e i)) :
    ∀ fuel i, fuel + i = maxRetries → i < maxRetries →
      (fetchWithRetryAux attempt maxRetries i fuel).result
          = Except.error (some (e (maxRetries - 1)))
      ∧ (fetchWithRetryAux attempt maxRetries i fuel).attempts = maxRetries - i := by
  intro fuel
  induction fuel with
  | zero =>
    intro i hfi hi
    omega
  | succ n ih =>
    intro i hfi hi
    simp only [fetchWithRetryAux, hf i hi]
    by_cases hlast : i = maxRetries - 1
    · subst hlast
      refine ⟨by simp, ?_⟩
      have h1 : maxRetries - (maxRetries - 1) = 1 := by omega
      simp [h1]
    · have hi1 : i + 1 < maxRetries := by omega
      have hrec := ih (i + 1) (by omega) hi1
      simp only [hlast, if_false]
      refine ⟨hrec.1, ?_⟩
      rw [hrec.2]
      omega

theorem fetchWithRetryAux_congr {ε ρ : Type} (a b : Nat → Except ε ρ) (maxRetries : Nat)
    (hab : ∀ k, k < maxRetries → a k = b k) :
    ∀ fuel i, fuel + i ≤ maxRetries →
      fetchWithRetryAux a maxRetries i fuel = fetchWithRetryAux b maxRetries i fuel := by
  intro fuel
  induction fuel with
  | zero => intro i _; rfl
  | succ n ih =>
    intro i h
    have hik : i < maxRetries := by omega
    simp only [fetchWithRetryAux, hab i hik]
    cases b i with
    | ok r => rfl
    | error e => rw [ih (i + 1) (by omega)]

/-- Claim C4: when all `maxRetries` attempts fail, `fetchWithRetry`
propagates the final attempt's error, makes exactly `maxRetries` attempts,
and its outcome does not depend on what any attempt beyond index
`maxRetries - 1` would do. -/
theorem retry_exhaustion {ε ρ : Type} (attempt : Nat → Except ε ρ) (e : Nat → ε)
    (maxRetries : Nat) (hmr : 1 ≤ maxRetries)
    (hf : ∀ i, i < maxRetries → attempt i = Except.error (e i)) :
    (fetchWithRetry attempt maxRetries).result = Except.error (some (e (maxRetries - 1)))
    ∧ (fetchWithRetry attempt maxRetries).attempts = maxRetries
    ∧ (∀ attempt2 : Nat → Except ε ρ, (∀ k, k < maxRetries → attempt2 k = attempt k) →
        fetchWithRetry attempt2 maxRetries = fetchWithRetry attempt maxRetries) := by
  have h := fetchWithRetryAux_allFail attempt e maxRetries hf maxRetries 0 (by omega) (by omega)
  refine ⟨h.1, by simpa [fetchWithRetry] using h.2, ?_⟩
  intro attempt2 h2
  exact fetchWithRetryAux_congr attempt2 attempt maxRetries h2 maxRetries 0 (by omega)

/-- Claim C4, witness: the always-rejecting oracle with the default three
retries fails with the final attempt's error after exactly three
attempts. -/
theorem retry_exhaustion_witness :
    (fetchWithRetry alwaysFailAttempt 3).result = Except.error (some 9)
    ∧ (fetchWithRetry alwaysFailAttempt 3).attempts = 3 :=
  ⟨(retry_exhaustion alwaysFailAttempt (fun _ => 9) 3 (by decide) (fun _ _ => rfl)).1,
   (retry_exhaustion alwaysFailAttempt (fun _ => 9) 3 (by decide) (fun _ _ => rfl)).2.1⟩

/-- Claim C9: a fetch attempt that resolves is returned immediately as the
success result whatever its HTTP status — no retry, no backoff delay (at
the first attempt and, generally, at any attempt with loop fuel left) —
and `sendMessageToBot` then succeeds exactly when the resolved body parses
as JSON. -/
theorem resolved_response_no_retry {γ : Type} (attempt : Nat → Except Unit (JsResponse γ))
    (r : JsResponse γ) (h : attempt 0 = Except.ok r) :
    (fetchWithRetry attempt 3).result = Except.ok r
    ∧ (fetchWithRetry attempt 3).delays = []
    ∧ (fetchWithRetry attempt 3).attempts = 1
    ∧ (∀ (i fuel : Nat) (r2 : JsResponse γ), attempt i = Except.ok r2 →
        fetchWithRetryAux attempt 3 i (fuel + 1) = ⟨Except.ok r2, [], 1⟩)
    ∧ (sendMessageToBot attempt = Except.ok () ↔ ∃ j, r.json = Except.ok j) := by
  have hfetch : fetchWithRetry attempt 3 = ⟨Except.ok r, [], 1⟩ := by
    simp [fetchWithRetry, fetchWithRetryAux, h]
  refine ⟨by rw [hfetch], by rw [hfetch], by rw [hfetch], ?_, ?_⟩
  · intro i fuel r2 h2
    simp [fetchWithRetryAux, h2]
  · simp only [sendMessageToBot, hfetch]
    cases hj : r.json with
    | ok j => simp [hj]
    | error u => simp [hj]

/-- Claim C9, witness: a first attempt resolving with HTTP status 500 and
a JSON body is a success — no delays, and the send succeeds. -/
theorem resolved_response_no_retry_witness :
    (fetchWithRetry status500Attempt 3).result = Except.ok ⟨500, Except.ok 0⟩
    ∧ (fetchWithRetry status500Attempt 3).delays = []
    ∧ sendMessageToBot status500Attempt = Except.ok () :=
  ⟨(resolved_response_no_retry status500Attempt ⟨500, Except.ok 0⟩ rfl).1,
   (resolved_response_no_retry status500Attempt ⟨500, Except.ok 0⟩ rfl).2.1,
   ((resolved_response_no_retry status500Attempt ⟨500, Except.ok 0⟩ rfl).2.2.2.2).mpr ⟨0, rfl⟩⟩

/-- Claim C5: `processMessage` is total (it returns a `String`, never an
exception): an image-fetch failure on an image message yields the media
apology; a backend failure or a malformed/empty backend response yields
the apology matching the message's modality; and every result is either
an extracted reply or one of the two apologies. -/
theorem processMessage_total_modal_apology (cfg : Config) (m : Message)
    (imageFetch : Except Unit String) (aiCall : RequestBody → Except Unit AiData) :
    (isImageMessage m = true → imageFetch = Except.error () →
      processMessage cfg m imageFetch aiCall = MEDIA_APOLOGY)
    ∧ (∀ body, buildRequestBody cfg m imageFetch = Except.ok body →
        (aiCall body = Except.error () ∨
          (∃ d, aiCall body = Except.ok d ∧ extractReply d = none)) →
        processMessage cfg m imageFetch aiCall
          = (if isImageMessage m then MEDIA_APOLOGY else TEXT_APOLOGY))
    ∧ (processMessage cfg m imageFetch aiCall = MEDIA_APOLOGY
       ∨ processMessage cfg m imageFetch aiCall = TEXT_APOLOGY
       ∨ ∃ body d reply, buildRequestBody cfg m imageFetch = Except.ok body
           ∧ aiCall body = Except.ok d ∧ extractReply d = some reply
           ∧ processMessage cfg m imageFetch aiCall = reply) := by
  refine ⟨?_, ?_, ?_⟩
  · intro hi hfi
    simp [processMessage, buildRequestBody, hi, hfi]
  · intro body hb herr
    simp only [processMessage, hb]
    rcases herr with h | ⟨d, hd, hex⟩
    · simp [finishAi, h]
    · simp [finishAi, hd, hex]
  · cases hb : buildRequestBody cfg m imageFetch with
    | error a =>
      have ha : a = MEDIA_APOLOGY := by
        by_cases hi : isImageMessage m
        · cases hfi : imageFetch with
          | error u =>
            rw [hfi] at hb
            simp [buildRequestBody, hi] at hb
            exact hb.symm
          | ok b64 =>
            rw [hfi] at hb
            simp [buildRequestBody, hi] at hb
        · simp [buildRequestBody, hi] at hb
      left
      simp [processMessage, hb, ha]
    | ok body =>
      cases hc : aiCall body with
      | error u =>
        by_cases hi : isImageMessage m
        · left; simp [processMessage, hb, finishAi, hc, hi]
        · right; left; simp [processMessage, hb, finishAi, hc, hi]
      | ok d =>
        cases hex : extractReply d with
        | none =>
          by_cases hi : isImageMessage m
          · left; simp [processMessage, hb, finishAi, hc, hex, hi]
          · right; left; simp [processMessage, hb, finishAi, hc, hex, hi]
        | some reply =>
          right; right
          exact ⟨body, d, reply, rfl, hc, hex, by simp [processMessage, hb, finishAi, hc, hex]⟩

/-- Claim C5, witness: a plain-text message whose backend call fails gets
the plain-text apology. -/
theorem processMessage_total_modal_apology_witness :
    processMessage {} plainTextMsg (Except.error ()) failingAiCall = TEXT_APOLOGY := by
  have h := (processMessage_total_modal_apology {} plainTextMsg (Except.error ())
      failingAiCall).2.1 (RequestBody.text "gpt-3.5-turbo" "hi  there") rfl (Or.inl rfl)
  have hni : isImageMessage plainTextMsg = false := rfl
  rw [hni] at h
  simpa using h

/-- Claim C6: the per-message task invokes the generator and dispatches
its reply to the message's reply endpoint; when the primary dispatch
fails, exactly one fallback delivery of the fixed failure message goes to
the same endpoint, whether or not the fallback succeeds; and the task
always returns `Except.ok` — no exception escapes it, so the other
messages of the batch and the drain loop continue. -/
theorem perMessageTask_isolation (cfg : Config) (origin : String) (m : Message)
    (imageFetch : Except Unit String) (aiCall : RequestBody → Except Unit AiData)
    (primaryOk fallbackOk : Bool) :
    ∃ l, perMessageTask cfg origin m imageFetch aiCall primaryOk fallbackOk = Except.ok l
    ∧ l.head? = some ⟨replyUrl origin m.mid, processMessage cfg m imageFetch aiCall⟩
    ∧ (primaryOk = true →
        l = [⟨replyUrl origin m.mid, processMessage cfg m imageFetch aiCall⟩])
    ∧ (primaryOk = false →
        l = [⟨replyUrl origin m.mid, processMessage cfg m imageFetch aiCall⟩,
             ⟨replyUrl origin m.mid, PER_MESSAGE_ERROR⟩])
    ∧ (∀ d, d ∈ l → d.url = replyUrl origin m.mid) := by
  cases primaryOk <;> cases fallbackOk <;>
    refine ⟨_, rfl, rfl, ?_, ?_, ?_⟩ <;>
    simp [perMessageTask]

/-- Claim C6, witness: with both deliveries failing the task still
returns `Except.ok`, having attempted the generated reply and then the
fixed failure message at the same endpoint. -/
theorem perMessageTask_isolation_witness :
    perMessageTask {} "" plainTextMsg (Except.error ()) failingAiCall false false
      = Except.ok [⟨replyUrl "" plainTextMsg.mid,
                     processMessage {} plainTextMsg (Except.error ()) failingAiCall⟩,
                   ⟨replyUrl "" plainTextMsg.mid, PER_MESSAGE_ERROR⟩] := by
  obtain ⟨l, h1, _, _, h4, _⟩ :=
    perMessageTask_isolation {} "" plainTextMsg (Except.error ()) failingAiCall false false
  rw [h4 rfl] at h1
  exact h1

/-- Claim C8, counterexample: a group message sent by the bot itself that
does mention the bot (alias `@chatgpt`) is NOT enqueued — the self-sender
check fires first, so "enqueued if and only if mentioned" fails for group
events from the bot. -/
theorem admission_group_iff_cex :
    mentionedAtGroup 7 selfGroupMsg = true
    ∧ (handlerPost 7 selfGroupMsg).enqueued = false := by
  decide

/-- Claim C8, amended: every admitted-or-ignored POST decision returns
status 200; events from the bot itself are never enqueued; a group event
from another sender is enqueued exactly when the bot is mentioned (id in
the mentions list, inline `@<bot id>` text, or case-insensitive
`@chatgpt` alias); a direct event from another sender is always
enqueued. -/
theorem admission_amended (botId : Nat) (m : Message) :
    (handlerPost botId m).status = 200
    ∧ (m.from_uid = botId → (handlerPost botId m).enqueued = false)
    ∧ (∀ g, m.from_uid ≠ botId → m.target = MsgTarget.gid g →
        (handlerPost botId m).enqueued = mentionedAtGroup botId m)
    ∧ (∀ u, m.from_uid ≠ botId → m.target = MsgTarget.uid u →
        (handlerPost botId m).enqueued = true) := by
  refine ⟨?_, ?_, ?_, ?_⟩
  · simp only [handlerPost]
    split
    · rfl
    · cases m.target with
      | gid g => by_cases hm : mentionedAtGroup botId m <;> simp [hm]
      | uid u => rfl
  · intro h
    simp [handlerPost, h]
  · intro g hne ht
    simp only [handlerPost, ht]
    rw [if_neg (by simpa using hne)]
    by_cases hm : mentionedAtGroup botId m <;> simp [hm]
  · intro u hne ht
    simp only [handlerPost, ht]
    rw [if_neg (by simpa using hne)]

/-- Claim C8, witness: a group message from another sender carrying the
alias mention is enqueued exactly per the mention test (which holds for
it). -/
theorem admission_amended_witness :
    (handlerPost 7 groupMentionMsg).enqueued = mentionedAtGroup 7 groupMentionMsg
    ∧ mentionedAtGroup 7 groupMentionMsg = true :=
  ⟨(admission_amended 7 groupMentionMsg).2.2.1 1 (by decide) rfl, by decide⟩

/-- Claim C10: `isImageMessage` holds exactly when the message is a
`vocechat/file` whose properties carry a string `content_type` starting
with `image/`; a non-image message — including a `vocechat/file` whose
attachment is not an image — takes the text branch, posting its content
with `@<digits>` tokens stripped and trimmed as the user prompt; an image
message with a fetched attachment takes the image branch. -/
theorem image_branch_selection (cfg : Config) (m : Message)
    (imageFetch : Except Unit String) (aiCall : RequestBody → Except Unit AiData) :
    (isImageMessage m = true ↔
      (m.detail.content_type = "vocechat/file"
       ∧ ∃ p s, m.detail.properties = some p ∧ p.content_type = some (PropVal.str s)
           ∧ jsStartsWith s "image/" = true))
    ∧ (isImageMessage m = false →
        processMessage cfg m imageFetch aiCall
          = finishAi false (aiCall (RequestBody.text cfg.textModel
              (processMessageContent m.detail.content))))
    ∧ (∀ b64, isImageMessage m = true → imageFetch = Except.ok b64 →
        processMessage cfg m imageFetch aiCall
          = finishAi true (aiCall (RequestBody.image cfg.imageModel b64)))
    ∧ processMessageContent " hi @123 there " = "hi  there" := by
  refine ⟨?_, ?_, ?_, by decide⟩
  · simp only [isImageMessage, Bool.and_eq_true, beq_iff_eq]
    constructor
    · rintro ⟨hct, hprop⟩
      refine ⟨hct, ?_⟩
      cases hp : m.detail.properties with
      | none => rw [hp] at hprop; simp at hprop
      | some p =>
        rw [hp] at hprop
        have hprop2 : (match p.content_type with
            | some (PropVal.str s) => jsStartsWith s "image/"
            | _ => false) = true := hprop
        cases hc : p.content_type with
        | none => rw [hc] at hprop2; simp at hprop2
        | some v =>
          cases v with
          | str s =>
            rw [hc] at hprop2
            exact ⟨p, s, rfl, hc, by simpa using hprop2⟩
          | other => rw [hc] at hprop2; simp at hprop2
    · rintro ⟨hct, p, s, hp, hc, hs⟩
      refine ⟨hct, ?_⟩
      rw [hp]
      have hgoal : (match p.content_type with
          | some (PropVal.str s) => jsStartsWith s "image/"
          | _ => false) = true := by
        rw [hc]
        simpa using hs
      exact hgoal
  · intro hni
    simp [processMessage, buildRequestBody, hni]
  · intro b64 hi hfi
    simp [processMessage, buildRequestBody, hi, hfi]

/-- Claim C10, witness: a `vocechat/file` message carrying a PDF takes
the plain-text branch, its file path (mention-stripped and trimmed)
becoming the user prompt. -/
theorem image_branch_selection_witness :
    processMessage {} pdfFileMsg (Except.error ()) failingAiCall
      = finishAi false (failingAiCall (RequestBody.text (Config.textModel {})
          (processMessageContent pdfFileMsg.detail.content))) :=
  (image_branch_selection {} pdfFileMsg (Except.error ()) failingAiCall).2.1 rfl

end Bot
